import Mathlib

/-!
Shallow embedding of the scheduling and state-synchronization core of the
BLE temperature/humidity sensor firmware (`BTLE_Temp_Server.ino`), together
with proofs about its time-string parsing (`getDigits`, `setRtcTime`), the
config-file key lookup (`readln`, `readKey`), the startup cadence computation,
and the main scheduler loop (`loop`, split here into `secondTask`/`hourTask`).
-/

/-- Clock value held by the software RTC: `rtc.setTime(sec,min,hour,day,month,year)`. -/
structure ClockValue where
  year : Nat
  month : Nat
  day : Nat
  hour : Nat
  minute : Nat
  second : Nat
deriving DecidableEq

/-- RTC-related mutable globals: the clock plus the edge-detection baselines
`lastSecond` and `lastHr` (both `int`, initialized to `-1`). -/
structure RtcState where
  clock : ClockValue
  lastSecond : Int
  lastHr : Int
deriving DecidableEq

/-- The character test `(c >= '0') && (c <= '9')` from `getDigits`. -/
def isDigitCh (c : Char) : Bool := decide ('0' ≤ c) && decide (c ≤ '9')

/-- Accumulator loop of `getDigits`: consume `n` characters, building up `val`;
any non-digit (including running out of characters, i.e. hitting the NUL
terminator in the C original) yields `-1`. -/
def getDigitsAux : List Char → Nat → Nat → Int
  | _, 0, val => (val : Int)
  | [], _ + 1, _ => -1
  | c :: p, n + 1, val =>
    if isDigitCh c then getDigitsAux p n (val * 10 + (c.toNat - 48)) else -1

/-- `getDigits(char* p, int nDigits)`: value of `nDigits` digits starting at `p`,
`-1` on any non-digit. -/
def getDigits (p : List Char) (nDigits : Nat) : Int := getDigitsAux p nDigits 0

/-- Validation-and-parse part of `setRtcTime` (lines 174-207): length guard,
six fixed-position `getDigits` fields, range checks, and the four delimiter
checks at indices 4, 7, 13, 16.  Returns the parsed fields on acceptance. -/
def parseRtcString (t : List Char) : Option ClockValue :=
  if t.length < 19 then none else
  let tyr := getDigits (t.drop 0) 4
  let tmo := getDigits (t.drop 5) 2
  let tda := getDigits (t.drop 8) 2
  let thr := getDigits (t.drop 11) 2
  let tmn := getDigits (t.drop 14) 2
  let tse := getDigits (t.drop 17) 2
  if (2024 ≤ tyr ∧ tyr ≤ 2100) ∧ (1 ≤ tmo ∧ tmo ≤ 12) ∧ (1 ≤ tda ∧ tda ≤ 31) ∧
     (0 ≤ thr ∧ thr ≤ 23) ∧ (0 ≤ tmn ∧ tmn ≤ 59) ∧ (0 ≤ tse ∧ tse ≤ 59) ∧
     t.getD 4 '?' = '/' ∧ t.getD 7 '?' = '/' ∧ t.getD 13 '?' = ':' ∧ t.getD 16 '?' = ':' then
    some { year := tyr.toNat, month := tmo.toNat, day := tda.toNat,
           hour := thr.toNat, minute := tmn.toNat, second := tse.toNat }
  else none

/-- `setRtcTime`: on acceptance, commit the parsed value via
`rtc.setTime(tse,tmn,thr,tda,tmo,tyr)` and reset the baselines
`lastSecond = tse; lastHr = thr`; otherwise return with no mutation. -/
def setRtcTime (t : List Char) (σ : RtcState) : RtcState :=
  match parseRtcString t with
  | some cv => { clock := cv, lastSecond := (cv.second : Int), lastHr := (cv.hour : Int) }
  | none => σ

/-- Observable actions of one `loop()` iteration: the `setValue` on the time
characteristic (line 462), a call to `backupTimeValue` (`backup`), the DHT read
block entry (`sensorRead`), the `setValue`/`notify` pairs on the temperature and
humidity characteristics, and a diagnostic print (`diag`, the
"Unable to write backup file" message). -/
inductive Ev where
  | setTimeVal
  | backup
  | sensorRead
  | setTempVal
  | notifyTemp
  | setHumVal
  | notifyHum
  | diag
deriving DecidableEq

/-- Result of one DHT read, already rendered by `sprintf`: `valid = false`
models a faulted read (the driver returns NaN, which `sprintf` renders as
"nan"); `text` is the rendered string in either case.  The loop code never
inspects validity. -/
structure SensorVal where
  valid : Bool
  text : List Char
deriving DecidableEq

/-- Mutable program state used by `loop()`: the RTC state with its baselines,
`secondCtr`, the staged write buffer `setTimeData`, and the current values of
the three BLE characteristics. -/
structure SysState where
  rtc : RtcState
  secondCtr : Nat
  setTimeData : List Char
  timeChar : List Char
  tempChar : List Char
  humChar : List Char
deriving DecidableEq

/-- `CharacteristicCallBack::onWrite`: `strncpy(setTimeData, ttag.c_str(), 31)`
overwrites the single staging buffer with at most 31 characters. -/
def onWrite (v : List Char) (σ : SysState) : SysState :=
  { σ with setTimeData := v.take 31 }

/-- `backupTimeValue()` as an event trace: the checkpoint call itself, plus the
"Unable to write backup file" diagnostic when the backup resource cannot be
opened for writing (`pw = false`), in which case nothing is written. -/
def backupTimeValue (pw : Bool) : List Ev :=
  if pw then [Ev.backup] else [Ev.backup, Ev.diag]

/-- Zero-padded decimal rendering of width `w`, as produced by `strftime`. -/
def padNum (w n : Nat) : List Char :=
  let ds := Nat.toDigits 10 n
  List.replicate (w - ds.length) '0' ++ ds

/-- `rtc.getTime("%Y/%m/%d %H:%M:%S")`. -/
def formatTime (cv : ClockValue) : List Char :=
  padNum 4 cv.year ++ '/' :: (padNum 2 cv.month ++ '/' :: (padNum 2 cv.day ++
    ' ' :: (padNum 2 cv.hour ++ ':' :: (padNum 2 cv.minute ++ ':' :: padNum 2 cv.second))))

/-- The per-second edge test `sec != lastSecond` of line 444. -/
def rtcSecondEdge (ρ : RtcState) : Bool := decide ((ρ.clock.second : Int) ≠ ρ.lastSecond)

/-- The hourly edge test `hr != lastHr` of line 504. -/
def rtcHourEdge (ρ : RtcState) : Bool := decide ((ρ.clock.hour : Int) ≠ ρ.lastHr)

/-- Second-edge half of `loop()` (lines 443-501): update `lastSecond`,
increment `secondCtr` (a 32-bit unsigned counter), consume a staged time
string (applying it via `setRtcTime` and checkpointing) or else refresh the
time characteristic, then run the sensor block when the cadence divides the
counter.  `sT`/`sH` are the environment's sensor readings for this tick and
`pw` tells whether the backup resource is writable. -/
def secondTask (u : Nat) (sT sH : SensorVal) (pw : Bool) (σ : SysState) : SysState × List Ev :=
  if rtcSecondEdge σ.rtc then
    let rtc1 : RtcState := { σ.rtc with lastSecond := (σ.rtc.clock.second : Int) }
    let ctr1 : Nat := (σ.secondCtr + 1) % 4294967296
    let στ : SysState :=
      if σ.setTimeData ≠ [] then
        { σ with rtc := setRtcTime σ.setTimeData rtc1, secondCtr := ctr1, setTimeData := [] }
      else
        { σ with rtc := rtc1, secondCtr := ctr1, timeChar := formatTime rtc1.clock }
    let evτ : List Ev := if σ.setTimeData ≠ [] then backupTimeValue pw else [Ev.setTimeVal]
    if ctr1 % u = 0 then
      ({ στ with tempChar := sT.text, humChar := sH.text },
        evτ ++ [Ev.sensorRead, Ev.setTempVal, Ev.notifyTemp, Ev.setHumVal, Ev.notifyHum])
    else (στ, evτ)
  else (σ, [])

/-- Hourly half of `loop()` (lines 502-510): on an hour edge, update `lastHr`
and checkpoint the time. -/
def hourTask (pw : Bool) (σ : SysState) : SysState × List Ev :=
  if rtcHourEdge σ.rtc then
    ({ σ with rtc := { σ.rtc with lastHr := (σ.rtc.clock.hour : Int) } }, backupTimeValue pw)
  else (σ, [])

/-- One full iteration of `loop()`: the second-edge block followed by the
hourly block, with their event traces concatenated in program order. -/
def loopIter (u : Nat) (sT sH : SensorVal) (pw : Bool) (σ : SysState) : SysState × List Ev :=
  let s1 := secondTask u sT sH pw σ
  let s2 := hourTask pw s1.1
  (s2.1, s1.2 ++ s2.2)

/-- The counter value tested by the cadence check on the tick that detects a
second edge: `secondCtr` is incremented first, then `secondCtr % updateRateSec`
is compared with zero. -/
def newCtr (σ : SysState) : Nat := (σ.secondCtr + 1) % 4294967296

/-- Environment of one loop iteration: the RTC value the hardware oscillator
has advanced to, an optional asynchronous BLE write of a time string arriving
before the iteration, the two sensor readings, and backup-resource
writability. -/
structure EnvStep where
  newClock : ClockValue
  write : Option (List Char)
  sT : SensorVal
  sH : SensorVal
  pw : Bool

/-- One environment step followed by one loop iteration: the oscillator
advances the clock, a client write (if any) overwrites the staging buffer,
then `loop()` runs. -/
def stepEnv (u : Nat) (e : EnvStep) (σ : SysState) : SysState × List Ev :=
  let σa : SysState := { σ with rtc := { σ.rtc with clock := e.newClock } }
  let σb : SysState := match e.write with
    | some v => onWrite v σa
    | none => σa
  loopIter u e.sT e.sH e.pw σb

/-- `n` iterations of the loop under an environment schedule. -/
def runLoop (u : Nat) (es : Nat → EnvStep) (σ : SysState) : Nat → SysState
  | 0 => σ
  | n + 1 => (stepEnv u (es n) (runLoop u es σ n)).1

/-- Buffer well-formedness the C code relies on: the staged time string fits
the 32-byte `setTimeData` buffer (at most 31 characters plus terminator). -/
def WF (σ : SysState) : Prop := σ.setTimeData.length ≤ 31

/-- Scheduling-relevant projection of the state: everything except the
sensor-fed characteristic values. -/
def schedOf (σ : SysState) : RtcState × Nat × List Char × List Char :=
  (σ.rtc, σ.secondCtr, σ.setTimeData, σ.timeChar)

/-- Action of one loop iteration on the scheduling projection alone: the same
second-edge and hour-edge branching as `secondTask`/`hourTask`, restricted to
the four fields of `schedOf`.  Used to show the scheduling state never depends
on sensor readings or persistence faults. -/
def schedStep (_u : Nat) (q : RtcState × Nat × List Char × List Char) :
    RtcState × Nat × List Char × List Char :=
  let p :=
    if rtcSecondEdge q.1 then
      if q.2.2.1 ≠ [] then
        (setRtcTime q.2.2.1 { q.1 with lastSecond := (q.1.clock.second : Int) },
          (q.2.1 + 1) % 4294967296, ([] : List Char), q.2.2.2)
      else
        ({ q.1 with lastSecond := (q.1.clock.second : Int) },
          (q.2.1 + 1) % 4294967296, q.2.2.1, formatTime q.1.clock)
    else q
  if rtcHourEdge p.1 then
    ({ p.1 with lastHr := (p.1.clock.hour : Int) }, p.2.1, p.2.2.1, p.2.2.2)
  else p

/-- Action of the environment prefix of `stepEnv` on the scheduling
projection: advance the clock, then apply a pending client write. -/
def schedEnv (e : EnvStep) (q : RtcState × Nat × List Char × List Char) :
    RtcState × Nat × List Char × List Char :=
  ({ q.1 with clock := e.newClock }, q.2.1,
    (match e.write with
      | some v => v.take 31
      | none => q.2.2.1), q.2.2.2)

/-- Body of `readln` (lines 232-259), tracking the remaining buffer room
(`maxlen-1` minus characters stored so far), the accumulated line and the
unread part of the stream.  Returns (line, rest-of-stream, `!eof`).  A byte
at 128 or above reads as a negative `char` and is treated as end of file;
carriage returns are skipped without consuming room; a line feed ends the
line successfully; a full buffer ends the read successfully with the
remainder left in the stream. -/
def readlnAux : Nat → List Char → List Char → List Char × List Char × Bool
  | 0, acc, inp => (acc, inp, true)
  | _ + 1, acc, [] => (acc, [], false)
  | room + 1, acc, c :: rest =>
    if 128 ≤ c.toNat then (acc, rest, false)
    else if c = '\r' then readlnAux (room + 1) acc rest
    else if c = '\n' then (acc, rest, true)
    else readlnAux room (acc ++ [c]) rest

/-- `readln(finp, buf, maxlen)` on a stream of characters. -/
def readln (maxlen : Nat) (inp : List Char) : List Char × List Char × Bool :=
  readlnAux (maxlen - 1) [] inp

/-- Scan loop of `readKey` (lines 263-296): repeatedly `readln` into a
127-byte buffer while the read succeeds; the first buffer whose first
`strlen(key)` characters equal the key yields
`strncpy(outbuf, &buf[n], maxlen)`.  The fuel argument only bounds the
recursion; it is chosen larger than the stream length, which `readln`
consumes strictly on every successful read. -/
def readKeyAux (key : List Char) (maxlen : Nat) : Nat → List Char → List Char
  | 0, _ => []
  | fuel + 1, inp =>
    match readln 127 inp with
    | (buf, rest, ok) =>
      if ok then
        if buf.take key.length = key then (buf.drop key.length).take maxlen
        else readKeyAux key maxlen fuel rest
      else []

/-- `readKey(configFn, key, outbuf, maxlen)`: `none` models a resource that is
missing or cannot be opened (the function prints a diagnostic and leaves the
output empty). -/
def readKey (file : Option (List Char)) (key : List Char) (maxlen : Nat) : List Char :=
  match file with
  | none => []
  | some content => readKeyAux key maxlen (content.length + 1) content

/-- Whitespace class skipped by C `atoi`. -/
def isSpaceCh (c : Char) : Bool :=
  c = ' ' || c = '\t' || c = '\n' || c = Char.ofNat 11 || c = Char.ofNat 12 || c = '\r'

/-- Digit-run value used by `atoi`. -/
def atoiDigits (l : List Char) : Int :=
  ((l.takeWhile isDigitCh).foldl (fun a c => a * 10 + (c.toNat - 48)) 0 : Nat)

/-- C `atoi`: skip whitespace, optional sign, then a digit run; the empty
string (and any string with no leading digits) gives 0. -/
def atoi (s : List Char) : Int :=
  match s.dropWhile isSpaceCh with
  | '-' :: rest => - atoiDigits rest
  | '+' :: rest => atoiDigits rest
  | rest => atoiDigits rest

/-- Cadence computation of `setup()` (lines 350-366): `updateRateSec` defaults
to 10; when the filesystem mounts, it is unconditionally replaced by
`atoi(readKey(...))` clamped into [2,60].  `mountOk = false` models
`SPIFFS.begin` failing; `cfg = none` models `/config.ini` missing. -/
def effectiveUpdateRate (mountOk : Bool) (cfg : Option (List Char)) : Nat :=
  if mountOk then
    let v := readKey cfg "UPDATERATE=".toList 15
    let x : Int := atoi v
    let x1 : Int := if x < 2 then 2 else x
    let x2 : Int := if x1 > 60 then 60 else x1
    x2.toNat
  else 10

/-- Field reader used to state claims about `setRtcTime` independently of
`getDigits`: the `len` characters at `pos` must all be digits, and their
decimal value is returned. -/
def fieldVal (s : List Char) (pos len : Nat) : Option Nat :=
  let f := (s.drop pos).take len
  if f.length = len && f.all isDigitCh then
    some (f.foldl (fun a c => a * 10 + (c.toNat - 48)) 0)
  else none

/-- Range test on an optional field value; an unparsable field fails. -/
def inRange (o : Option Nat) (lo hi : Nat) : Bool :=
  match o with
  | some v => decide (lo ≤ v) && decide (v ≤ hi)
  | none => false

/-- Character-level statement of the conditions `setRtcTime` actually
enforces: at least 19 characters, all six fields made of digits and in range,
and the delimiters at indices 4, 7, 13, 16. -/
def timeStringOK (s : List Char) : Bool :=
  decide (19 ≤ s.length)
  && inRange (fieldVal s 0 4) 2024 2100
  && inRange (fieldVal s 5 2) 1 12
  && inRange (fieldVal s 8 2) 1 31
  && inRange (fieldVal s 11 2) 0 23
  && inRange (fieldVal s 14 2) 0 59
  && inRange (fieldVal s 17 2) 0 59
  && (s.getD 4 '?' == '/') && (s.getD 7 '?' == '/')
  && (s.getD 13 '?' == ':') && (s.getD 16 '?' == ':')

/-- Modelled from the spec: the full fixed 19-character pattern
`YYYY/MM/DD HH:MM:SS` the specification describes — exact length 19, digits in
every field position, and all five literal delimiters including the space at
index 10. -/
def specTimePattern (s : List Char) : Bool :=
  (s.length == 19)
  && ([0, 1, 2, 3, 5, 6, 8, 9, 11, 12, 14, 15, 17, 18].all fun i => isDigitCh (s.getD i '?'))
  && (s.getD 4 '?' == '/') && (s.getD 7 '?' == '/') && (s.getD 10 '?' == ' ')
  && (s.getD 13 '?' == ':') && (s.getD 16 '?' == ':')

/-- Modelled from the spec: splitting a text resource into lines at line
feeds, with carriage returns stripped — the notion of "line" the Config
Loader contract speaks of. -/
def specSplitLines (content : List Char) : List (List Char) :=
  (content.filter fun c => c ≠ '\r').splitOn '\n'

/-- Line-level lookup: value of the first line whose prefix equals the key,
truncated to `maxlen`; empty when no line matches. -/
def linesLookup (ls : List (List Char)) (key : List Char) (maxlen : Nat) : List Char :=
  match ls.find? (fun l => l.take key.length == key) with
  | some l => (l.drop key.length).take maxlen
  | none => []

/-- A line that round-trips through `readln` in one call: strictly shorter
than the 127-byte buffer, free of line feeds and carriage returns, and pure
ASCII. -/
def goodLine (l : List Char) : Bool :=
  decide (l.length ≤ 125) && l.all fun c => decide (c.toNat < 128) && !(c == '\n') && !(c == '\r')

/-- Join lines into a stream, terminating every line with a line feed. -/
def joinLines (ls : List (List Char)) : List Char :=
  ls.foldr (fun l acc => l ++ '\n' :: acc) []

lemma getDigitsAux_spec : ∀ (n : Nat) (l : List Char) (acc : Nat), n ≤ l.length →
    getDigitsAux l n acc =
      if (l.take n).all isDigitCh then
        (((l.take n).foldl (fun a c => a * 10 + (c.toNat - 48)) acc : Nat) : Int)
      else -1
  | 0, l, acc, _ => by simp [getDigitsAux]
  | n + 1, [], _, h => by simp at h
  | n + 1, c :: t, acc, h => by
    simp only [getDigitsAux, List.take_succ_cons, List.all_cons, List.foldl_cons]
    by_cases hc : isDigitCh c
    · rw [if_pos hc, getDigitsAux_spec n t _ (by simpa using h)]
      simp [hc]
    · rw [if_neg hc]
      simp [hc]

lemma getDigits_fieldVal (s : List Char) (pos len : Nat) (h : pos + len ≤ s.length) :
    getDigits (s.drop pos) len =
      match fieldVal s pos len with
      | some v => (v : Int)
      | none => -1 := by
  have hlen : len ≤ (s.drop pos).length := by
    rw [List.length_drop]; omega
  have htake : ((s.drop pos).take len).length = len := by
    rw [List.length_take]; omega
  unfold getDigits fieldVal
  rw [getDigitsAux_spec len (s.drop pos) 0 hlen]
  by_cases hall : ((s.drop pos).take len).all isDigitCh = true
  · simp [htake, hall]
  · simp [htake, hall]

lemma inRange_getDigits (s : List Char) (pos len lo hi : Nat) (h : pos + len ≤ s.length) :
    ((lo : Int) ≤ getDigits (s.drop pos) len ∧ getDigits (s.drop pos) len ≤ (hi : Int)) ↔
      inRange (fieldVal s pos len) lo hi = true := by
  rw [getDigits_fieldVal s pos len h]
  cases hf : fieldVal s pos len with
  | none =>
    simp only [inRange]
    constructor
    · rintro ⟨h1, -⟩
      exact absurd h1 (by omega)
    · intro hx
      exact absurd hx (by simp)
  | some v =>
    simp [inRange, Nat.cast_le]

lemma parse_some_timeStringOK (s : List Char) (cv : ClockValue)
    (h : parseRtcString s = some cv) : timeStringOK s = true := by
  unfold parseRtcString at h
  split at h
  · exact absurd h (by simp)
  next h19 =>
    simp only [] at h
    split at h
    next hc =>
      obtain ⟨⟨a1, a2⟩, ⟨b1, b2⟩, ⟨c1, c2⟩, ⟨d1, d2⟩, ⟨f1, f2⟩, ⟨g1, g2⟩, k4, k7, k13, k16⟩ := hc
      have hl : 19 ≤ s.length := by omega
      unfold timeStringOK
      rw [(inRange_getDigits s 0 4 2024 2100 (by omega)).mp ⟨a1, a2⟩,
        (inRange_getDigits s 5 2 1 12 (by omega)).mp ⟨b1, b2⟩,
        (inRange_getDigits s 8 2 1 31 (by omega)).mp ⟨c1, c2⟩,
        (inRange_getDigits s 11 2 0 23 (by omega)).mp ⟨d1, d2⟩,
        (inRange_getDigits s 14 2 0 59 (by omega)).mp ⟨f1, f2⟩,
        (inRange_getDigits s 17 2 0 59 (by omega)).mp ⟨g1, g2⟩]
      simp only [k4, k7, k13, k16]
      simp [hl]
    · exact absurd h (by simp)

/-- C1 counterexample: two strings that do not match the fixed 19-character
pattern `YYYY/MM/DD HH:MM:SS` are nevertheless accepted by `setRtcTime`, which
mutates the clock state and the edge-detection baselines: a 20-character
string (wrong length — only `strlen < 19` is rejected), and a 19-character
string whose separator at index 10 is not a space (index 10 is never
checked). -/
theorem c1_counterexample :
    ("2024/02/23 12:34:56X".toList.length ≠ 19
      ∧ setRtcTime "2024/02/23 12:34:56X".toList
          { clock := ⟨2024, 1, 1, 0, 0, 0⟩, lastSecond := -1, lastHr := -1 } ≠
        { clock := ⟨2024, 1, 1, 0, 0, 0⟩, lastSecond := -1, lastHr := -1 })
    ∧ (specTimePattern "2024/02/23x12:34:56".toList = false
      ∧ setRtcTime "2024/02/23x12:34:56".toList
          { clock := ⟨2024, 1, 1, 0, 0, 0⟩, lastSecond := -1, lastHr := -1 } ≠
        { clock := ⟨2024, 1, 1, 0, 0, 0⟩, lastSecond := -1, lastHr := -1 }) := by
  decide

/-- C1 amended: `setRtcTime` rejects, leaving the clock state and the
baselines `lastSecond`/`lastHr` byte-for-byte unchanged, exactly those strings
failing one of the checks the code performs — length below 19, a non-digit
inside one of the six digit fields, a field outside its declared range, or a
wrong delimiter at index 4, 7, 13 or 16.  The separator at index 10 and any
characters beyond index 18 are not validated. -/
theorem c1_reject_leaves_state (s : List Char) (σ : RtcState)
    (h : timeStringOK s = false) : setRtcTime s σ = σ := by
  unfold setRtcTime
  cases hp : parseRtcString s with
  | none => rfl
  | some cv => simp [parse_some_timeStringOK s cv hp] at h

/-- Witness for `c1_reject_leaves_state` at the out-of-range month string
"2025/13/01 00:00:00". -/
theorem c1_reject_leaves_state_witness :
    timeStringOK "2025/13/01 00:00:00".toList = false ∧
      setRtcTime "2025/13/01 00:00:00".toList
          { clock := ⟨2024, 1, 1, 0, 0, 0⟩, lastSecond := -1, lastHr := -1 } =
        { clock := ⟨2024, 1, 1, 0, 0, 0⟩, lastSecond := -1, lastHr := -1 } :=
  ⟨by decide, c1_reject_leaves_state _ _ (by decide)⟩

/-- C4: parsing "2024/02/23 12:34:56" succeeds with exactly
{year 2024, month 2, day 23, hour 12, minute 34, second 56}; applying it
commits that value whatever the prior state was; and every successful
application resets the baselines `lastSecond`/`lastHr` to the new second and
hour, so that neither the second-edge nor the hour-edge test of the loop fires
again on the just-applied time. -/
theorem c4_valid_apply_resets_baselines :
    (parseRtcString "2024/02/23 12:34:56".toList =
        some { year := 2024, month := 2, day := 23, hour := 12, minute := 34, second := 56 })
    ∧ (∀ σ : RtcState, setRtcTime "2024/02/23 12:34:56".toList σ =
        { clock := { year := 2024, month := 2, day := 23, hour := 12, minute := 34, second := 56 },
          lastSecond := 56, lastHr := 12 })
    ∧ (∀ (s : List Char) (σ : RtcState) (cv : ClockValue), parseRtcString s = some cv →
        (setRtcTime s σ).clock = cv
        ∧ (setRtcTime s σ).lastSecond = ((setRtcTime s σ).clock.second : Int)
        ∧ (setRtcTime s σ).lastHr = ((setRtcTime s σ).clock.hour : Int)
        ∧ rtcSecondEdge (setRtcTime s σ) = false
        ∧ rtcHourEdge (setRtcTime s σ) = false) := by
  refine ⟨by decide, fun σ => rfl, ?_⟩
  rintro s σ cv h
  unfold setRtcTime
  rw [h]
  exact ⟨rfl, rfl, rfl, by simp [rtcSecondEdge], by simp [rtcHourEdge]⟩

/-- Witness for `c4_valid_apply_resets_baselines` at "2024/03/01 07:08:09". -/
theorem c4_valid_apply_resets_baselines_witness :
    (setRtcTime "2024/03/01 07:08:09".toList
        { clock := ⟨2024, 1, 1, 0, 0, 0⟩, lastSecond := -1, lastHr := -1 }).clock =
      ⟨2024, 3, 1, 7, 8, 9⟩
    ∧ rtcSecondEdge (setRtcTime "2024/03/01 07:08:09".toList
        { clock := ⟨2024, 1, 1, 0, 0, 0⟩, lastSecond := -1, lastHr := -1 }) = false := by
  have h := c4_valid_apply_resets_baselines.2.2 "2024/03/01 07:08:09".toList
    { clock := ⟨2024, 1, 1, 0, 0, 0⟩, lastSecond := -1, lastHr := -1 }
    ⟨2024, 3, 1, 7, 8, 9⟩ (by decide)
  exact ⟨h.1, h.2.2.2.1⟩

lemma count_backup_backupTimeValue (pw : Bool) : (backupTimeValue pw).count Ev.backup = 1 := by
  cases pw <;> decide

lemma count_backup_sensorBlock :
    ([Ev.sensorRead, Ev.setTempVal, Ev.notifyTemp, Ev.setHumVal, Ev.notifyHum].count Ev.backup) = 0 := by
  decide

/-- C2 counterexample: on a second-edge tick that consumes a staged time
string failing validation ("junk", too short to parse) and that crosses no
hour boundary, the loop still calls `backupTimeValue` — line 456 runs
unconditionally after any consumption, successful or not.  This contradicts
"a staged external time string that fails validation does not cause a
checkpoint". -/
theorem c2_counterexample :
    parseRtcString "junk".toList = none
    ∧ rtcHourEdge (secondTask 7 ⟨true, "71.0".toList⟩ ⟨true, "39".toList⟩ true
        { rtc := { clock := ⟨2024, 1, 1, 0, 0, 3⟩, lastSecond := 2, lastHr := 0 },
          secondCtr := 0, setTimeData := "junk".toList,
          timeChar := "t".toList, tempChar := "72.5".toList, humChar := "40".toList }).1.rtc = false
    ∧ Ev.backup ∈ (loopIter 7 ⟨true, "71.0".toList⟩ ⟨true, "39".toList⟩ true
        { rtc := { clock := ⟨2024, 1, 1, 0, 0, 3⟩, lastSecond := 2, lastHr := 0 },
          secondCtr := 0, setTimeData := "junk".toList,
          timeChar := "t".toList, tempChar := "72.5".toList, humChar := "40".toList }).2 := by
  decide

/-- C2 amended: in every loop iteration, the number of `backupTimeValue`
calls equals one per second-edge that consumes a non-empty staged time string
(whether or not validation succeeds) plus one per detected hour-edge, and is
zero otherwise. -/
theorem c2_checkpoint_count (u : Nat) (sT sH : SensorVal) (pw : Bool) (σ : SysState) :
    (loopIter u sT sH pw σ).2.count Ev.backup =
      (if rtcSecondEdge σ.rtc = true ∧ σ.setTimeData ≠ [] then 1 else 0) +
      (if rtcHourEdge (secondTask u sT sH pw σ).1.rtc = true then 1 else 0) := by
  unfold loopIter
  rw [List.count_append]
  have h2 : ∀ τ : SysState, (hourTask pw τ).2.count Ev.backup =
      if rtcHourEdge τ.rtc = true then 1 else 0 := by
    intro τ
    unfold hourTask
    cases hH : rtcHourEdge τ.rtc
    · simp
    · simp [count_backup_backupTimeValue]
  rw [h2]
  have h1 : (secondTask u sT sH pw σ).2.count Ev.backup =
      if rtcSecondEdge σ.rtc = true ∧ σ.setTimeData ≠ [] then 1 else 0 := by
    unfold secondTask
    cases hE : rtcSecondEdge σ.rtc
    · simp
    · by_cases hP : σ.setTimeData = []
      · by_cases hC : (σ.secondCtr + 1) % 4294967296 % u = 0 <;>
          simp [hP, hC, List.count_append]
      · by_cases hC : (σ.secondCtr + 1) % 4294967296 % u = 0 <;>
          simp [hP, hC, List.count_append, count_backup_backupTimeValue,
            count_backup_sensorBlock]
  rw [h1]

/-- C5: with a cadence of 5 seconds, one loop iteration performs a sensor
read exactly when it is a second-edge tick whose incremented `SecondCounter`
is a multiple of 5; on such a tick the formatted temperature and humidity are
exposed on their characteristics, and the event trace contains the read
followed by set-value/notify pairs for temperature then humidity, in order. -/
theorem c5_sampler_cadence (sT sH : SensorVal) (pw : Bool) (σ : SysState) :
    ((loopIter 5 sT sH pw σ).2.count Ev.sensorRead =
      if rtcSecondEdge σ.rtc = true ∧ newCtr σ % 5 = 0 then 1 else 0)
    ∧ (rtcSecondEdge σ.rtc = true → newCtr σ % 5 = 0 →
        (loopIter 5 sT sH pw σ).1.tempChar = sT.text
        ∧ (loopIter 5 sT sH pw σ).1.humChar = sH.text
        ∧ List.Sublist [Ev.sensorRead, Ev.setTempVal, Ev.notifyTemp, Ev.setHumVal, Ev.notifyHum]
            (loopIter 5 sT sH pw σ).2) := by
  have hRead : ∀ τ : SysState, (hourTask pw τ).2.count Ev.sensorRead = 0 := by
    intro τ
    unfold hourTask
    cases rtcHourEdge τ.rtc <;> cases pw <;> simp [backupTimeValue]
  have hTemp : ∀ τ : SysState, (hourTask pw τ).1.tempChar = τ.tempChar := by
    intro τ
    unfold hourTask
    cases rtcHourEdge τ.rtc <;> simp
  have hHum : ∀ τ : SysState, (hourTask pw τ).1.humChar = τ.humChar := by
    intro τ
    unfold hourTask
    cases rtcHourEdge τ.rtc <;> simp
  constructor
  · unfold loopIter
    rw [List.count_append, hRead]
    unfold secondTask
    cases hE : rtcSecondEdge σ.rtc
    · simp
    · by_cases hP : σ.setTimeData = [] <;>
        by_cases hC : (σ.secondCtr + 1) % 4294967296 % 5 = 0 <;>
          simp [hP, hC, newCtr, List.count_append, backupTimeValue] <;> cases pw <;> decide
  · intro hE hC
    simp only [newCtr] at hC
    have hstep : (secondTask 5 sT sH pw σ).1.tempChar = sT.text
        ∧ (secondTask 5 sT sH pw σ).1.humChar = sH.text
        ∧ ∃ pre : List Ev, (secondTask 5 sT sH pw σ).2 =
            pre ++ [Ev.sensorRead, Ev.setTempVal, Ev.notifyTemp, Ev.setHumVal, Ev.notifyHum] := by
      unfold secondTask
      by_cases hP : σ.setTimeData = []
      · simp [hE, hP, hC]
        exact ⟨[Ev.setTimeVal], rfl⟩
      · simp [hE, hP, hC]
    obtain ⟨ht, hh, pre, hpre⟩ := hstep
    have hloop1 : (loopIter 5 sT sH pw σ).1 = (hourTask pw (secondTask 5 sT sH pw σ).1).1 := rfl
    have hloop2 : (loopIter 5 sT sH pw σ).2 =
        (secondTask 5 sT sH pw σ).2 ++ (hourTask pw (secondTask 5 sT sH pw σ).1).2 := rfl
    refine ⟨?_, ?_, ?_⟩
    · rw [hloop1, hTemp, ht]
    · rw [hloop1, hHum, hh]
    · rw [hloop2, hpre]
      exact (List.sublist_append_right pre _).trans (List.sublist_append_left _ _)

/-- Witness for `c5_sampler_cadence` on a concrete edge tick whose counter
reaches 10. -/
theorem c5_sampler_cadence_witness :
    (loopIter 5 ⟨true, "71.2".toList⟩ ⟨true, "39".toList⟩ true
        { rtc := { clock := ⟨2024, 1, 1, 0, 0, 8⟩, lastSecond := 7, lastHr := 0 },
          secondCtr := 9, setTimeData := [], timeChar := "t".toList,
          tempChar := "70.0".toList, humChar := "41".toList }).1.tempChar = "71.2".toList
    ∧ Ev.sensorRead ∈ (loopIter 5 ⟨true, "71.2".toList⟩ ⟨true, "39".toList⟩ true
        { rtc := { clock := ⟨2024, 1, 1, 0, 0, 8⟩, lastSecond := 7, lastHr := 0 },
          secondCtr := 9, setTimeData := [], timeChar := "t".toList,
          tempChar := "70.0".toList, humChar := "41".toList }).2 := by
  have h := c5_sampler_cadence ⟨true, "71.2".toList⟩ ⟨true, "39".toList⟩ true
    { rtc := { clock := ⟨2024, 1, 1, 0, 0, 8⟩, lastSecond := 7, lastHr := 0 },
      secondCtr := 9, setTimeData := [], timeChar := "t".toList,
      tempChar := "70.0".toList, humChar := "41".toList }
  exact ⟨(h.2 (by decide) (by decide)).1,
    (h.2 (by decide) (by decide)).2.2.subset (by decide)⟩

lemma hourTask_fields (pw : Bool) (τ : SysState) :
    (hourTask pw τ).1.rtc.clock = τ.rtc.clock
    ∧ (hourTask pw τ).1.rtc.lastSecond = τ.rtc.lastSecond
    ∧ (hourTask pw τ).1.secondCtr = τ.secondCtr
    ∧ (hourTask pw τ).1.setTimeData = τ.setTimeData
    ∧ (hourTask pw τ).1.timeChar = τ.timeChar
    ∧ (hourTask pw τ).1.tempChar = τ.tempChar
    ∧ (hourTask pw τ).1.humChar = τ.humChar
    ∧ (hourTask pw τ).1.rtc.lastHr =
        (if rtcHourEdge τ.rtc = true then (τ.rtc.clock.hour : Int) else τ.rtc.lastHr)
    ∧ Ev.setTimeVal ∉ (hourTask pw τ).2 := by
  unfold hourTask
  cases h : rtcHourEdge τ.rtc <;> cases pw <;> simp [backupTimeValue]

lemma secondTask_pending_fields (u : Nat) (sT sH : SensorVal) (pw : Bool) (σ : SysState)
    (hE : rtcSecondEdge σ.rtc = true) (hP : σ.setTimeData ≠ []) :
    (secondTask u sT sH pw σ).1.rtc =
        setRtcTime σ.setTimeData { σ.rtc with lastSecond := (σ.rtc.clock.second : Int) }
    ∧ (secondTask u sT sH pw σ).1.secondCtr = (σ.secondCtr + 1) % 4294967296
    ∧ (secondTask u sT sH pw σ).1.setTimeData = []
    ∧ (secondTask u sT sH pw σ).1.timeChar = σ.timeChar
    ∧ ((σ.secondCtr + 1) % 4294967296 % u ≠ 0 →
        (secondTask u sT sH pw σ).1.tempChar = σ.tempChar
        ∧ (secondTask u sT sH pw σ).1.humChar = σ.humChar)
    ∧ Ev.setTimeVal ∉ (secondTask u sT sH pw σ).2 := by
  unfold secondTask
  by_cases hC : (σ.secondCtr + 1) % 4294967296 % u = 0 <;>
    cases pw <;> simp [hE, hP, hC, backupTimeValue]

/-- C6: the staging buffer is a single-slot last-write-wins cell.  A second
external write before consumption overwrites the first entirely; on the
second-edge that consumes a non-empty slot the scheduler clears it; and the
value applied to the RTC on that edge is exactly the current (latest) slot
content — after two writes, `setRtcTime` runs on the second value, the first
having left no trace. -/
theorem c6_pending_single_slot (v1 v2 : List Char) (u : Nat) (sT sH : SensorVal)
    (pw : Bool) (σ : SysState) :
    ((onWrite v2 (onWrite v1 σ)).setTimeData = v2.take 31)
    ∧ (rtcSecondEdge σ.rtc = true → σ.setTimeData ≠ [] →
        (loopIter u sT sH pw σ).1.setTimeData = []
        ∧ (secondTask u sT sH pw σ).1.rtc =
            setRtcTime σ.setTimeData { σ.rtc with lastSecond := (σ.rtc.clock.second : Int) })
    ∧ (rtcSecondEdge σ.rtc = true → v2.take 31 ≠ [] →
        (secondTask u sT sH pw (onWrite v2 (onWrite v1 σ))).1.rtc =
          setRtcTime (v2.take 31) { σ.rtc with lastSecond := (σ.rtc.clock.second : Int) }) := by
  refine ⟨rfl, ?_, ?_⟩
  · intro hE hP
    obtain ⟨f1, f2, f3, f4, f5, f6⟩ := secondTask_pending_fields u sT sH pw σ hE hP
    obtain ⟨g1, g2, g3, g4, g5, g6, g7, g8, g9⟩ :=
      hourTask_fields pw (secondTask u sT sH pw σ).1
    exact ⟨g4.trans f3, f1⟩
  · intro hE hP2
    have hE' : rtcSecondEdge (onWrite v2 (onWrite v1 σ)).rtc = true := hE
    have hP' : (onWrite v2 (onWrite v1 σ)).setTimeData ≠ [] := hP2
    exact (secondTask_pending_fields u sT sH pw _ hE' hP').1

/-- Witness for `c6_pending_single_slot`: two concrete writes followed by a
consuming edge. -/
theorem c6_pending_single_slot_witness :
    (onWrite "2025/05/06 07:08:09".toList (onWrite "1999/01/01 00:00:00".toList
        { rtc := { clock := ⟨2024, 1, 1, 0, 0, 4⟩, lastSecond := 3, lastHr := 0 },
          secondCtr := 0, setTimeData := [], timeChar := "t".toList,
          tempChar := "70.0".toList, humChar := "41".toList })).setTimeData =
      "2025/05/06 07:08:09".toList
    ∧ (secondTask 5 ⟨true, "71.2".toList⟩ ⟨true, "39".toList⟩ true
        (onWrite "2025/05/06 07:08:09".toList (onWrite "1999/01/01 00:00:00".toList
          { rtc := { clock := ⟨2024, 1, 1, 0, 0, 4⟩, lastSecond := 3, lastHr := 0 },
            secondCtr := 0, setTimeData := [], timeChar := "t".toList,
            tempChar := "70.0".toList, humChar := "41".toList }))).1.rtc =
      setRtcTime "2025/05/06 07:08:09".toList
        { clock := ⟨2024, 1, 1, 0, 0, 4⟩, lastSecond := 4, lastHr := 0 } := by
  have h := c6_pending_single_slot "1999/01/01 00:00:00".toList "2025/05/06 07:08:09".toList
    5 ⟨true, "71.2".toList⟩ ⟨true, "39".toList⟩ true
    { rtc := { clock := ⟨2024, 1, 1, 0, 0, 4⟩, lastSecond := 3, lastHr := 0 },
      secondCtr := 0, setTimeData := [], timeChar := "t".toList,
      tempChar := "70.0".toList, humChar := "41".toList }
  refine ⟨by decide, ?_⟩
  have h3 := h.2.2 (by decide) (by decide)
  exact h3.trans (by decide)

/-- C8 counterexample: on a cadence tick whose sensor read faults (modelled by
`valid = false`, rendered "nan"), the loop still overwrites the previously
exposed temperature and emits a change notification, instead of retaining the
prior value — the code never inspects the reading's validity. -/
theorem c8_counterexample :
    (⟨false, "nan".toList⟩ : SensorVal).valid = false
    ∧ (loopIter 5 ⟨false, "nan".toList⟩ ⟨false, "nan".toList⟩ true
        { rtc := { clock := ⟨2024, 1, 1, 0, 0, 7⟩, lastSecond := 6, lastHr := 0 },
          secondCtr := 9, setTimeData := [], timeChar := "t".toList,
          tempChar := "72.5".toList, humChar := "40".toList }).1.tempChar ≠ "72.5".toList
    ∧ Ev.notifyTemp ∈ (loopIter 5 ⟨false, "nan".toList⟩ ⟨false, "nan".toList⟩ true
        { rtc := { clock := ⟨2024, 1, 1, 0, 0, 7⟩, lastSecond := 6, lastHr := 0 },
          secondCtr := 9, setTimeData := [], timeChar := "t".toList,
          tempChar := "72.5".toList, humChar := "40".toList }).2 := by
  decide

/-- C8 amended: on every scheduled sample tick, faulted or not, the loop
formats whatever the sensor read produced (for a fault, the rendered "nan"),
overwrites both exposed values with it and notifies both characteristics; the
previously exposed values are not retained.  The next read happens on the next
cadence tick, as for any sample. -/
theorem c8_fault_still_published (u : Nat) (sT sH : SensorVal) (pw : Bool) (σ : SysState)
    (hE : rtcSecondEdge σ.rtc = true) (hC : newCtr σ % u = 0) (_hV : sT.valid = false) :
    (loopIter u sT sH pw σ).1.tempChar = sT.text
    ∧ (loopIter u sT sH pw σ).1.humChar = sH.text
    ∧ Ev.notifyTemp ∈ (loopIter u sT sH pw σ).2
    ∧ Ev.notifyHum ∈ (loopIter u sT sH pw σ).2 := by
  simp only [newCtr] at hC
  have hstep : (secondTask u sT sH pw σ).1.tempChar = sT.text
      ∧ (secondTask u sT sH pw σ).1.humChar = sH.text
      ∧ Ev.notifyTemp ∈ (secondTask u sT sH pw σ).2
      ∧ Ev.notifyHum ∈ (secondTask u sT sH pw σ).2 := by
    unfold secondTask
    by_cases hP : σ.setTimeData = [] <;> cases pw <;> simp [hE, hP, hC, backupTimeValue]
  obtain ⟨g1, g2, g3, g4, g5, g6, g7, g8, g9⟩ :=
    hourTask_fields pw (secondTask u sT sH pw σ).1
  refine ⟨g6.trans hstep.1, g7.trans hstep.2.1, ?_, ?_⟩
  · exact List.mem_append.mpr (Or.inl hstep.2.2.1)
  · exact List.mem_append.mpr (Or.inl hstep.2.2.2)

/-- Witness for `c8_fault_still_published` on a concrete faulted tick. -/
theorem c8_fault_still_published_witness :
    (loopIter 5 ⟨false, "nan".toList⟩ ⟨true, "38".toList⟩ false
        { rtc := { clock := ⟨2024, 1, 1, 0, 0, 9⟩, lastSecond := 8, lastHr := 0 },
          secondCtr := 4, setTimeData := [], timeChar := "t".toList,
          tempChar := "68.9".toList, humChar := "42".toList }).1.tempChar = "nan".toList
    ∧ Ev.notifyHum ∈ (loopIter 5 ⟨false, "nan".toList⟩ ⟨true, "38".toList⟩ false
        { rtc := { clock := ⟨2024, 1, 1, 0, 0, 9⟩, lastSecond := 8, lastHr := 0 },
          secondCtr := 4, setTimeData := [], timeChar := "t".toList,
          tempChar := "68.9".toList, humChar := "42".toList }).2 := by
  have h := c8_fault_still_published 5 ⟨false, "nan".toList⟩ ⟨true, "38".toList⟩ false
    { rtc := { clock := ⟨2024, 1, 1, 0, 0, 9⟩, lastSecond := 8, lastHr := 0 },
      secondCtr := 4, setTimeData := [], timeChar := "t".toList,
      tempChar := "68.9".toList, humChar := "42".toList }
    (by decide) (by decide) (by decide)
  exact ⟨h.1, h.2.2.2⟩

/-- C10 counterexample: on a second-edge that consumes an invalid staged time
string, state beyond the cleared buffer and the counter does change — the
`lastSecond` baseline is always updated to the new second, and when the tick
is also a cadence tick the exposed temperature value changes too. -/
theorem c10_counterexample :
    rtcSecondEdge ({ clock := ⟨2024, 1, 1, 0, 0, 6⟩, lastSecond := 5, lastHr := 0 } : RtcState) = true
    ∧ parseRtcString "bogus".toList = none
    ∧ (loopIter 5 ⟨false, "nan".toList⟩ ⟨false, "nan".toList⟩ true
        { rtc := { clock := ⟨2024, 1, 1, 0, 0, 6⟩, lastSecond := 5, lastHr := 0 },
          secondCtr := 4, setTimeData := "bogus".toList, timeChar := "t".toList,
          tempChar := "72.5".toList, humChar := "40".toList }).1.rtc.lastSecond ≠ 5
    ∧ (loopIter 5 ⟨false, "nan".toList⟩ ⟨false, "nan".toList⟩ true
        { rtc := { clock := ⟨2024, 1, 1, 0, 0, 6⟩, lastSecond := 5, lastHr := 0 },
          secondCtr := 4, setTimeData := "bogus".toList, timeChar := "t".toList,
          tempChar := "72.5".toList, humChar := "40".toList }).1.tempChar ≠ "72.5".toList := by
  decide

/-- C10 amended: on a second-edge consuming a staged string that fails
validation, the per-second time-characteristic refresh is skipped (no
time-characteristic set-value happens and its value is untouched) and the
clock is unchanged; the changes are confined to the cleared staging buffer,
the incremented SecondCounter, the `lastSecond` baseline (set to the new
second), the sensor values when the tick is also a cadence tick, and the
`lastHr` baseline when the tick is also an hour-edge. -/
theorem c10_failed_pending_frame (u : Nat) (sT sH : SensorVal) (pw : Bool) (σ : SysState)
    (hE : rtcSecondEdge σ.rtc = true) (hP : σ.setTimeData ≠ [])
    (hF : parseRtcString σ.setTimeData = none) :
    Ev.setTimeVal ∉ (loopIter u sT sH pw σ).2
    ∧ (loopIter u sT sH pw σ).1.timeChar = σ.timeChar
    ∧ (loopIter u sT sH pw σ).1.rtc.clock = σ.rtc.clock
    ∧ (loopIter u sT sH pw σ).1.setTimeData = []
    ∧ (loopIter u sT sH pw σ).1.secondCtr = (σ.secondCtr + 1) % 4294967296
    ∧ (loopIter u sT sH pw σ).1.rtc.lastSecond = (σ.rtc.clock.second : Int)
    ∧ (newCtr σ % u ≠ 0 →
        (loopIter u sT sH pw σ).1.tempChar = σ.tempChar
        ∧ (loopIter u sT sH pw σ).1.humChar = σ.humChar)
    ∧ (loopIter u sT sH pw σ).1.rtc.lastHr =
        (if rtcHourEdge (secondTask u sT sH pw σ).1.rtc = true
          then (σ.rtc.clock.hour : Int) else σ.rtc.lastHr) := by
  have hSet : setRtcTime σ.setTimeData { σ.rtc with lastSecond := (σ.rtc.clock.second : Int) } =
      { σ.rtc with lastSecond := (σ.rtc.clock.second : Int) } := by
    unfold setRtcTime
    rw [hF]
  obtain ⟨f1, f2, f3, f4, f5, f6⟩ := secondTask_pending_fields u sT sH pw σ hE hP
  rw [hSet] at f1
  obtain ⟨g1, g2, g3, g4, g5, g6, g7, g8, g9⟩ :=
    hourTask_fields pw (secondTask u sT sH pw σ).1
  have hiter1 : (loopIter u sT sH pw σ).1 = (hourTask pw (secondTask u sT sH pw σ).1).1 := rfl
  have hiter2 : (loopIter u sT sH pw σ).2 =
      (secondTask u sT sH pw σ).2 ++ (hourTask pw (secondTask u sT sH pw σ).1).2 := rfl
  refine ⟨?_, ?_, ?_, ?_, ?_, ?_, ?_, ?_⟩
  · intro hmem
    rw [hiter2] at hmem
    rcases List.mem_append.mp hmem with hm | hm
    · exact f6 hm
    · exact g9 hm
  · rw [hiter1, g5, f4]
  · rw [hiter1, g1, f1]
  · rw [hiter1, g4, f3]
  · rw [hiter1, g3, f2]
  · rw [hiter1, g2, f1]
  · intro hCad
    simp only [newCtr] at hCad
    exact ⟨hiter1 ▸ g6.trans (f5 hCad).1, hiter1 ▸ g7.trans (f5 hCad).2⟩
  · rw [hiter1, g8, f1]

/-- Witness for `c10_failed_pending_frame` on a concrete non-cadence,
non-hour-edge tick consuming the invalid string "later". -/
theorem c10_failed_pending_frame_witness :
    (loopIter 5 ⟨true, "71.2".toList⟩ ⟨true, "39".toList⟩ true
        { rtc := { clock := ⟨2024, 1, 1, 0, 0, 11⟩, lastSecond := 10, lastHr := 0 },
          secondCtr := 5, setTimeData := "later".toList, timeChar := "t".toList,
          tempChar := "70.0".toList, humChar := "41".toList }).1.timeChar = "t".toList
    ∧ (loopIter 5 ⟨true, "71.2".toList⟩ ⟨true, "39".toList⟩ true
        { rtc := { clock := ⟨2024, 1, 1, 0, 0, 11⟩, lastSecond := 10, lastHr := 0 },
          secondCtr := 5, setTimeData := "later".toList, timeChar := "t".toList,
          tempChar := "70.0".toList, humChar := "41".toList }).1.tempChar = "70.0".toList := by
  have h := c10_failed_pending_frame 5 ⟨true, "71.2".toList⟩ ⟨true, "39".toList⟩ true
    { rtc := { clock := ⟨2024, 1, 1, 0, 0, 11⟩, lastSecond := 10, lastHr := 0 },
      secondCtr := 5, setTimeData := "later".toList, timeChar := "t".toList,
      tempChar := "70.0".toList, humChar := "41".toList }
    (by decide) (by decide) (by decide)
  exact ⟨h.2.1, (h.2.2.2.2.2.2.1 (by decide)).1⟩

lemma loopIter_schedOf (u : Nat) (sT sH : SensorVal) (pw : Bool) (σ : SysState) :
    schedOf (loopIter u sT sH pw σ).1 = schedStep u (schedOf σ) := by
  unfold loopIter secondTask hourTask schedStep schedOf
  by_cases hE : rtcSecondEdge σ.rtc <;> by_cases hP : σ.setTimeData = [] <;>
    by_cases hC : (σ.secondCtr + 1) % 4294967296 % u = 0 <;>
      simp only [hE, hP, hC, if_true, if_false, ite_true, ite_false, ne_eq,
        not_true, not_false_iff, Bool.false_eq_true, if_neg, decide_not] <;>
      split_ifs <;> simp_all

lemma schedStep_setTimeData (u : Nat) (q : RtcState × Nat × List Char × List Char) :
    (schedStep u q).2.2.1 = [] ∨ (schedStep u q).2.2.1 = q.2.2.1 := by
  unfold schedStep
  by_cases hE : rtcSecondEdge q.1 <;> by_cases hP : q.2.2.1 = [] <;>
    simp only [hE, hP, if_true, if_false, ite_true, ite_false, ne_eq, not_true,
      not_false_iff, Bool.false_eq_true] <;>
    split_ifs <;> simp_all

lemma stepEnv_schedOf (u : Nat) (e : EnvStep) (σ : SysState) :
    schedOf (stepEnv u e σ).1 = schedStep u (schedEnv e (schedOf σ)) := by
  unfold stepEnv
  cases hw : e.write with
  | none =>
    simp only [hw]
    rw [loopIter_schedOf]
    congr 1
    simp [schedOf, schedEnv, hw]
  | some v =>
    simp only [hw]
    rw [loopIter_schedOf]
    congr 1
    simp [onWrite, schedOf, schedEnv, hw]

lemma WF_stepEnv (u : Nat) (e : EnvStep) (σ : SysState) (h : WF σ) :
    WF (stepEnv u e σ).1 := by
  have hs := stepEnv_schedOf u e σ
  have hstd : (stepEnv u e σ).1.setTimeData = (schedOf (stepEnv u e σ).1).2.2.1 := rfl
  unfold WF
  rw [hstd, hs]
  rcases schedStep_setTimeData u (schedEnv e (schedOf σ)) with h1 | h1 <;> rw [h1]
  · simp
  · unfold schedEnv
    cases hw : e.write with
    | none => exact h
    | some v =>
      simp only []
      rw [List.length_take]
      omega

/-- C9: no combination of component faults stops or derails the scheduler: for
any two environment schedules that agree on the oscillator's clock values and
the client writes but may differ arbitrarily in sensor faults and
backup-resource writability, every iteration of the loop completes (the `n`-th
state is always defined), preserves the staging-buffer bound the C code relies
on, and produces bit-identical scheduling state (clock, baselines, counter,
staged buffer, time characteristic). -/
theorem c9_no_fault_stops_loop (u : Nat) (es1 es2 : Nat → EnvStep) (σ : SysState)
    (hAgree : ∀ n, (es1 n).newClock = (es2 n).newClock ∧ (es1 n).write = (es2 n).write)
    (hWF : WF σ) :
    ∀ n, WF (runLoop u es1 σ n) ∧ schedOf (runLoop u es1 σ n) = schedOf (runLoop u es2 σ n) := by
  intro n
  induction n with
  | zero => exact ⟨hWF, rfl⟩
  | succ n ih =>
    obtain ⟨ihW, ihS⟩ := ih
    have henv : ∀ q, schedEnv (es1 n) q = schedEnv (es2 n) q := by
      intro q
      unfold schedEnv
      rw [(hAgree n).1, (hAgree n).2]
    constructor
    · exact WF_stepEnv u (es1 n) _ ihW
    · show schedOf (stepEnv u (es1 n) (runLoop u es1 σ n)).1 =
        schedOf (stepEnv u (es2 n) (runLoop u es2 σ n)).1
      rw [stepEnv_schedOf, stepEnv_schedOf, ihS, henv]

/-- Witness for `c9_no_fault_stops_loop`: two iterations under a fault-free
schedule versus one with failing sensor reads and an unwritable backup
resource, from the post-setup initial state. -/
theorem c9_no_fault_stops_loop_witness :
    WF (runLoop 5
        (fun _ => ⟨⟨2024, 1, 1, 0, 0, 1⟩, none, ⟨true, "71.0".toList⟩, ⟨true, "39".toList⟩, true⟩)
        { rtc := { clock := ⟨2024, 1, 1, 0, 0, 0⟩, lastSecond := 0, lastHr := 0 },
          secondCtr := 0, setTimeData := [], timeChar := [], tempChar := [], humChar := [] } 2)
    ∧ schedOf (runLoop 5
        (fun _ => ⟨⟨2024, 1, 1, 0, 0, 1⟩, none, ⟨true, "71.0".toList⟩, ⟨true, "39".toList⟩, true⟩)
        { rtc := { clock := ⟨2024, 1, 1, 0, 0, 0⟩, lastSecond := 0, lastHr := 0 },
          secondCtr := 0, setTimeData := [], timeChar := [], tempChar := [], humChar := [] } 2) =
      schedOf (runLoop 5
        (fun _ => ⟨⟨2024, 1, 1, 0, 0, 1⟩, none, ⟨false, "nan".toList⟩, ⟨false, "nan".toList⟩, false⟩)
        { rtc := { clock := ⟨2024, 1, 1, 0, 0, 0⟩, lastSecond := 0, lastHr := 0 },
          secondCtr := 0, setTimeData := [], timeChar := [], tempChar := [], humChar := [] } 2) :=
  c9_no_fault_stops_loop 5
    (fun _ => ⟨⟨2024, 1, 1, 0, 0, 1⟩, none, ⟨true, "71.0".toList⟩, ⟨true, "39".toList⟩, true⟩)
    (fun _ => ⟨⟨2024, 1, 1, 0, 0, 1⟩, none, ⟨false, "nan".toList⟩, ⟨false, "nan".toList⟩, false⟩)
    { rtc := { clock := ⟨2024, 1, 1, 0, 0, 0⟩, lastSecond := 0, lastHr := 0 },
      secondCtr := 0, setTimeData := [], timeChar := [], tempChar := [], humChar := [] }
    (fun _ => ⟨rfl, rfl⟩) (by simp [WF]) 2

/-- C3 counterexample: with the filesystem mounted and a config resource
present but lacking the `UPDATERATE` key, the lookup returns empty, `atoi("")`
is 0, and the clamp produces an effective cadence of 2 seconds — not the
compiled-in default of 10 (line 350), which is overwritten unconditionally on
the mounted path. -/
theorem c3_counterexample :
    readKey (some "SENSOR=DHT11\n".toList) "UPDATERATE=".toList 15 = []
    ∧ effectiveUpdateRate true (some "SENSOR=DHT11\n".toList) = 2
    ∧ effectiveUpdateRate true (some "SENSOR=DHT11\n".toList) ≠ 10 := by
  decide

/-- C3 amended: an absent `UPDATERATE` key yields an empty lookup result
without failing, and the effective cadence is then 2 (the lower clamp applied
to `atoi` of the empty string); the compiled-in default of 10 survives only
when the filesystem mount itself fails; in every case — configured, missing,
or out-of-range — the effective cadence lies in [2,60]. -/
theorem c3_cadence_clamped :
    (∀ cfg : Option (List Char), readKey cfg "UPDATERATE=".toList 15 = [] →
      effectiveUpdateRate true cfg = 2)
    ∧ (∀ cfg : Option (List Char), effectiveUpdateRate false cfg = 10)
    ∧ (∀ (mountOk : Bool) (cfg : Option (List Char)),
        2 ≤ effectiveUpdateRate mountOk cfg ∧ effectiveUpdateRate mountOk cfg ≤ 60) := by
  refine ⟨?_, fun cfg => rfl, ?_⟩
  · intro cfg h
    unfold effectiveUpdateRate
    rw [if_pos rfl]
    simp only [h]
    decide
  · intro mountOk cfg
    cases mountOk with
    | false => constructor <;> simp [effectiveUpdateRate]
    | true =>
      unfold effectiveUpdateRate
      rw [if_pos rfl]
      simp only []
      constructor <;> split_ifs <;> omega

/-- Witness for `c3_cadence_clamped`: a config resource with keys but no
`UPDATERATE`, and a failed mount. -/
theorem c3_cadence_clamped_witness :
    effectiveUpdateRate true (some "UNITS=F\n".toList) = 2
    ∧ effectiveUpdateRate false none = 10 :=
  ⟨c3_cadence_clamped.1 (some "UNITS=F\n".toList) (by decide),
    c3_cadence_clamped.2.1 none⟩

lemma goodLine_props (l : List Char) (h : goodLine l = true) :
    l.length ≤ 125 ∧ ∀ c ∈ l, c.toNat < 128 ∧ c ≠ '\n' ∧ c ≠ '\r' := by
  simp only [goodLine, Bool.and_eq_true, decide_eq_true_eq, List.all_eq_true] at h
  refine ⟨h.1, fun c hc => ?_⟩
  have hcc := h.2 c hc
  simp only [Bool.and_eq_true, decide_eq_true_eq, Bool.not_eq_true', beq_eq_false_iff_ne,
    ne_eq] at hcc
  tauto

lemma readlnAux_newline (room : Nat) (acc rest : List Char) :
    readlnAux (room + 1) acc ('\n' :: rest) = (acc, rest, true) := by
  simp only [readlnAux]
  rw [if_neg (by decide), if_neg (by decide)]
  simp

lemma readlnAux_cons (room : Nat) (acc rest : List Char) (c : Char)
    (h1 : c.toNat < 128) (h2 : c ≠ '\n') (h3 : c ≠ '\r') :
    readlnAux (room + 1) acc (c :: rest) = readlnAux room (acc ++ [c]) rest := by
  simp only [readlnAux]
  rw [if_neg (by omega), if_neg h3, if_neg h2]

lemma readlnAux_line : ∀ (l : List Char) (room : Nat) (acc rest : List Char),
    l.length ≤ room →
    (∀ c ∈ l, c.toNat < 128 ∧ c ≠ '\n' ∧ c ≠ '\r') →
    readlnAux (room + 1) acc (l ++ '\n' :: rest) = (acc ++ l, rest, true)
  | [], room, acc, rest, _, _ => by
    simpa using readlnAux_newline room acc rest
  | c :: t, room, acc, rest, hlen, hok => by
    have hc := hok c (List.mem_cons_self c t)
    obtain ⟨r, rfl⟩ : ∃ r, room = r + 1 := ⟨room - 1, by simp at hlen; omega⟩
    rw [List.cons_append, readlnAux_cons (r + 1) acc (t ++ '\n' :: rest) c hc.1 hc.2.1 hc.2.2,
      readlnAux_line t r (acc ++ [c]) rest (by simp at hlen; omega)
        (fun d hd => hok d (List.mem_cons_of_mem c hd))]
    simp

lemma readlnAux_tail : ∀ (t : List Char) (room : Nat) (acc : List Char),
    t.length < room →
    (∀ c ∈ t, c.toNat < 128 ∧ c ≠ '\n' ∧ c ≠ '\r') →
    readlnAux room acc t = (acc ++ t, [], false)
  | [], room, acc, hlen, _ => by
    obtain ⟨r, rfl⟩ : ∃ r, room = r + 1 := ⟨room - 1, by omega⟩
    simp [readlnAux]
  | c :: t, room, acc, hlen, hok => by
    obtain ⟨r, rfl⟩ : ∃ r, room = r + 1 := ⟨room - 1, by omega⟩
    have hc := hok c (List.mem_cons_self c t)
    rw [readlnAux_cons r acc t c hc.1 hc.2.1 hc.2.2,
      readlnAux_tail t r (acc ++ [c]) (by simp at hlen ⊢; omega)
        (fun d hd => hok d (List.mem_cons_of_mem c hd))]
    simp

lemma readln_goodLine (l rest : List Char) (h : goodLine l = true) :
    readln 127 (l ++ '\n' :: rest) = (l, rest, true) := by
  obtain ⟨h1, h2⟩ := goodLine_props l h
  unfold readln
  have := readlnAux_line l 125 [] rest h1 h2
  simpa using this

lemma readln_tail (t : List Char) (h : goodLine t = true) :
    readln 127 t = (t, [], false) := by
  obtain ⟨h1, h2⟩ := goodLine_props t h
  unfold readln
  have := readlnAux_tail t 126 [] (by omega) h2
  simpa using this

lemma readKeyAux_lines : ∀ (ls : List (List Char)) (t key : List Char) (m fuel : Nat),
    (joinLines ls ++ t).length < fuel →
    (∀ l ∈ ls, goodLine l = true) → goodLine t = true →
    readKeyAux key m fuel (joinLines ls ++ t) = linesLookup ls key m
  | [], t, key, m, fuel, hf, _, ht => by
    obtain ⟨f, rfl⟩ : ∃ f, fuel = f + 1 := ⟨fuel - 1, by omega⟩
    show readKeyAux key m (f + 1) (joinLines [] ++ t) = linesLookup [] key m
    rw [show joinLines [] ++ t = t from by simp [joinLines]]
    simp only [readKeyAux]
    rw [readln_tail t ht]
    simp [linesLookup]
  | l :: ls, t, key, m, fuel, hf, hls, ht => by
    obtain ⟨f, rfl⟩ : ∃ f, fuel = f + 1 := ⟨fuel - 1, by omega⟩
    have hjoin : joinLines (l :: ls) ++ t = l ++ '\n' :: (joinLines ls ++ t) := by
      simp [joinLines]
    rw [hjoin]
    simp only [readKeyAux]
    rw [readln_goodLine l (joinLines ls ++ t) (hls l (List.mem_cons_self l ls))]
    by_cases hk : l.take key.length = key
    · rw [if_pos rfl, if_pos hk]
      simp [linesLookup, List.find?_cons_of_pos, hk]
    · rw [if_pos rfl, if_neg hk]
      have hflen : (joinLines ls ++ t).length < f := by
        rw [hjoin] at hf
        simp only [List.length_append, List.length_cons] at hf ⊢
        omega
      rw [readKeyAux_lines ls t key m f hflen
        (fun x hx => hls x (List.mem_cons_of_mem l hx)) ht]
      unfold linesLookup
      rw [List.find?_cons_of_neg _ (by simp [hk])]

/-- C7 counterexample: a resource consisting of the single line "TIME=42"
with no terminating line feed.  Its only line's prefix equals the key
"TIME=", so the claimed contract returns "42", but `readKey` returns the
empty string: `readln` reports EOF for the unterminated final line and the
scan loop never examines it. -/
theorem c7_counterexample :
    specSplitLines "TIME=42".toList = ["TIME=42".toList]
    ∧ linesLookup (specSplitLines "TIME=42".toList) "TIME=".toList 31 = "42".toList
    ∧ readKey (some "TIME=42".toList) "TIME=".toList 31 = []
    ∧ ("42".toList : List Char) ≠ [] := by
  decide

/-- C7 amended: for a resource made of ASCII, line-feed-terminated lines each
shorter than the 127-byte line buffer, followed by an optional unterminated
trailing fragment, `readKey` returns the value (truncated to `maxlen`) of the
first terminated line whose prefix equals the key, ignores the unterminated
fragment entirely, raises no error on duplicate or absent keys, and returns
the empty string when the resource is missing/unreadable or no line
matches. -/
theorem c7_first_line_prefix_lookup (ls : List (List Char)) (t key : List Char) (m : Nat)
    (hls : ∀ l ∈ ls, goodLine l = true) (ht : goodLine t = true) :
    readKey (some (joinLines ls ++ t)) key m = linesLookup ls key m
    ∧ readKey none key m = [] := by
  refine ⟨?_, rfl⟩
  unfold readKey
  exact readKeyAux_lines ls t key m _ (by omega) hls ht

/-- Witness for `c7_first_line_prefix_lookup` on a two-line config resource. -/
theorem c7_first_line_prefix_lookup_witness :
    readKey (some (joinLines ["UPDATERATE=5".toList, "UNITS=F".toList] ++ []))
        "UPDATERATE=".toList 15 =
      linesLookup ["UPDATERATE=5".toList, "UNITS=F".toList] "UPDATERATE=".toList 15
    ∧ readKey none "UPDATERATE=".toList 15 = [] :=
  c7_first_line_prefix_lookup ["UPDATERATE=5".toList, "UNITS=F".toList] []
    "UPDATERATE=".toList 15 (by decide) (by decide)
